import Mathlib

/-!
Shallow embedding of the directive-resolution core of scnlib
(src/include/scn/detail/parse_context.h and src/include/scn/detail/context.h).

Conventions:
* A C++ member function mutating `*this` becomes a Lean function returning the
  result paired with the updated state.
* A call whose `SCN_EXPECT` precondition is violated (an assertion, UB in
  release builds) is modelled by an `Option` result with `none` marking the
  contract violation; `some` carries the defined behaviour.
* `basic_string_view<Char>` cursors are `List Char` (the remaining view, for
  `basic_parse_context`, whose `advance` drops a prefix) or a fixed
  `List Char` plus a `Nat` iterator index (for `basic_scanf_parse_context`).
* `size_t` arithmetic that can wrap (`id - 1` in `do_get_arg`) is made
  explicit with `% 2^64`-style case analysis.
-/

namespace Scnlib

/-- Error codes of `error` (result.h) used by this core. -/
inductive error_code where
  | invalid_format_string
  | invalid_argument
  deriving DecidableEq, Repr

/-- An `error` value: a code plus a human-readable message. -/
structure error_t where
  code : error_code
  msg : String
  deriving DecidableEq, Repr

/-! ## ArgNumbering: `detail::parse_context_base` (parse_context.h lines 28-50)

The state is the signed member `m_next_arg_id`, initialised to `0`:
non-negative means automatic numbering with that counter value, negative
(the code only ever writes `-1`) means explicit indexing is locked in. -/

/-- `detail::parse_context_base`: holds the signed counter `m_next_arg_id`. -/
structure parse_context_base where
  m_next_arg_id : Int
  deriving DecidableEq, Repr

/-- The default-constructed state: `m_next_arg_id{0}`. -/
def pcb_init : parse_context_base := ⟨0⟩

/-- `parse_context_base::next_arg_id()`:
`if (m_next_arg_id >= 0) return static_cast<size_t>(m_next_arg_id++); return 0;` -/
def next_arg_id (p : parse_context_base) : Nat × parse_context_base :=
  if 0 ≤ p.m_next_arg_id then
    (p.m_next_arg_id.toNat, ⟨p.m_next_arg_id + 1⟩)
  else
    (0, p)

/-- `parse_context_base::check_arg_id(size_t)`:
`if (m_next_arg_id > 0) return false; m_next_arg_id = -1; return true;` -/
def check_arg_id (p : parse_context_base) (_id : Nat) : Bool × parse_context_base :=
  if 0 < p.m_next_arg_id then (false, p)
  else (true, ⟨-1⟩)

/-- `detail::basic_parse_context_base::check_arg_id(basic_string_view<Char>)`:
an empty body, a no-op on the numbering state. -/
def check_arg_id_str (p : parse_context_base) (_name : List Char) : parse_context_base :=
  p

/-! ## ArgBinder: `detail::arg_context_base` (context.h lines 101-176) -/

/-- Modelled from the spec: the external argument store interface (args.h is
out of scope, §6 of the spec): "Argument store: `get(index) -> optional<slot>`,
`check_id(index) -> bool` (existence check without materializing a slot)".
`get` returning `none` is the empty/absent arg (`!a` in the source). -/
structure ArgStore (α : Type) where
  get : Nat → Option α
  check_id : Nat → Bool

/-- The `size_t` expression `id - 1` of `do_get_arg`, with 64-bit wraparound
made explicit: at `id = 0` it is `2^64 - 1`. -/
def size_t_sub_one (id : Nat) : Nat :=
  if id = 0 then 2 ^ 64 - 1 else id - 1

/-- `arg_context_base::do_get_arg(size_t id)`:
`auto a = m_args.get(id);
 if (!a && !m_args.check_id(id - 1))
     return error(error::invalid_argument, "Argument id out of range");
 return a;` -/
def do_get_arg (st : ArgStore α) (id : Nat) : Except error_t (Option α) :=
  let a := st.get id
  if a.isNone && !st.check_id (size_t_sub_one id) then
    .error ⟨.invalid_argument, "Argument id out of range"⟩
  else
    .ok a

/-- `arg_context_base::next_arg()`:
`return do_get_arg(parse_context().next_arg_id());`
(the parse-context state advances first, then the lookup runs). -/
def next_arg (st : ArgStore α) (p : parse_context_base) :
    Except error_t (Option α) × parse_context_base :=
  (do_get_arg st (next_arg_id p).1, (next_arg_id p).2)

/-- `arg_context_base::arg(size_t id)`:
`return parse_context().check_arg_id(id) ? do_get_arg(id) : arg_type();`
The check runs (and may mutate the numbering state) before the branch; a
rejected check yields the default-constructed, empty arg — not an error value. -/
def arg_explicit (st : ArgStore α) (p : parse_context_base) (id : Nat) :
    Except error_t (Option α) × parse_context_base :=
  if (check_arg_id p id).1 then
    (do_get_arg st id, (check_arg_id p id).2)
  else
    (.ok none, (check_arg_id p id).2)

/-- `arg_context_base::arg(basic_string_view<char_type>)`:
`return arg_type{};` — always the empty arg, the numbering state untouched. -/
def arg_named (_st : ArgStore α) (p : parse_context_base) (_name : List Char) :
    Except error_t (Option α) × parse_context_base :=
  ((.ok none : Except error_t (Option α)), p)

/-- Modelled from the spec: the driving loop that surfaces a rejected explicit
index as a format-string error is not under src/ (it lives in the vscan
driver); spec §4.3: "`resolve_explicit(index)`: requires
`ArgNumbering.lock_explicit(index)` to succeed; if it fails (mixing detected),
returns failure *invalid_format_string*. Otherwise looks up `index` directly."
The lock is the source's `check_arg_id`. -/
def resolve_explicit (st : ArgStore α) (p : parse_context_base) (id : Nat) :
    Except error_t (Option α) × parse_context_base :=
  if (check_arg_id p id).1 then
    (do_get_arg st id, (check_arg_id p id).2)
  else
    (.error ⟨.invalid_format_string, "mixing automatic and explicit argument indexing"⟩,
     (check_arg_id p id).2)

/-- A concrete two-argument store (slots are their own indices), used for
concrete evaluations. -/
def natStore : ArgStore Nat :=
  ⟨fun i => if i < 2 then some i else none, fun i => decide (i < 2)⟩

/-- A concrete zero-argument store. -/
def zeroStore : ArgStore Nat :=
  ⟨fun _ => none, fun _ => false⟩

/-! Sequenced resolutions, used to speak about whole format strings. -/

/-- Run `n` successive automatic resolutions (`{}` directives), collecting
each directive's result in order. -/
def run_autos (st : ArgStore α) (p : parse_context_base) :
    Nat → List (Except error_t (Option α)) × parse_context_base
  | 0 => ([], p)
  | n + 1 =>
    ((next_arg st p).1 :: (run_autos st (next_arg st p).2 n).1,
     (run_autos st (next_arg st p).2 n).2)

/-- Run successive explicit resolutions (`{N}` directives) for the listed
indices, collecting each directive's result in order. -/
def run_explicits (st : ArgStore α) (p : parse_context_base) :
    List Nat → List (Except error_t (Option α)) × parse_context_base
  | [] => ([], p)
  | id :: ids =>
    ((arg_explicit st p id).1 :: (run_explicits st (arg_explicit st p id).2 ids).1,
     (run_explicits st (arg_explicit st p id).2 ids).2)

/-! ## Basic lemmas about the numbering state machine -/

theorem next_arg_id_nonneg (i : Nat) :
    next_arg_id ⟨(i : Int)⟩ = (i, ⟨(i : Int) + 1⟩) := by
  simp [next_arg_id]

theorem next_arg_id_neg {p : parse_context_base} (h : p.m_next_arg_id < 0) :
    next_arg_id p = (0, p) := by
  simp [next_arg_id, not_le.mpr h]

theorem check_arg_id_nonpos {p : parse_context_base} (h : p.m_next_arg_id ≤ 0)
    (i : Nat) : check_arg_id p i = (true, ⟨-1⟩) := by
  simp [check_arg_id, not_lt.mpr h]

theorem check_arg_id_pos {p : parse_context_base} (h : 0 < p.m_next_arg_id)
    (i : Nat) : check_arg_id p i = (false, p) := by
  simp [check_arg_id, h]

/-! ## Claim theorems: argument numbering and binding -/

/-- C4: `next_arg_id` in a non-negative (uninitialized or automatic) state
returns the current counter and increments it; in a negative (explicit-locked)
state it returns 0 leaving the state unchanged. `check_arg_id` in the
uninitialized state (counter 0) locks explicit indexing and returns true; with
the counter already advanced (positive) it returns false; in the locked state
it returns true again — all independently of the index argument `i`. -/
theorem C4_arg_numbering (p : parse_context_base) (i : Nat) :
    (0 ≤ p.m_next_arg_id →
      next_arg_id p = (p.m_next_arg_id.toNat, ⟨p.m_next_arg_id + 1⟩)) ∧
    (p.m_next_arg_id < 0 → next_arg_id p = (0, p)) ∧
    (p.m_next_arg_id = 0 → check_arg_id p i = (true, ⟨-1⟩)) ∧
    (0 < p.m_next_arg_id → check_arg_id p i = (false, p)) ∧
    (p.m_next_arg_id < 0 → check_arg_id p i = (true, ⟨-1⟩)) := by
  refine ⟨fun h => ?_, fun h => next_arg_id_neg h,
    fun h => check_arg_id_nonpos (le_of_eq h) i,
    fun h => check_arg_id_pos h i,
    fun h => check_arg_id_nonpos (le_of_lt h) i⟩
  simp [next_arg_id, h]

/-- Witness for C4 at concrete states. -/
theorem C4_arg_numbering_witness :
    next_arg_id ⟨2⟩ = (2, ⟨3⟩) ∧ check_arg_id ⟨0⟩ 5 = (true, ⟨-1⟩) ∧
    check_arg_id ⟨1⟩ 5 = (false, ⟨1⟩) ∧ next_arg_id ⟨-1⟩ = (0, ⟨-1⟩) :=
  ⟨(C4_arg_numbering ⟨2⟩ 5).1 (by decide),
   (C4_arg_numbering ⟨0⟩ 5).2.2.1 rfl,
   (C4_arg_numbering ⟨1⟩ 5).2.2.2.1 (by decide),
   (C4_arg_numbering ⟨-1⟩ 5).2.1 (by decide)⟩

/-- C3: when the store has no slot for `id`, `do_get_arg` yields the
invalid_argument error "Argument id out of range" exactly when `check_id` of
the (size_t-wrapped) predecessor index is also false; when that check is true
it yields the empty result `ok none`, not an error. -/
theorem C3_do_get_arg {α : Type} (st : ArgStore α) (id : Nat)
    (hnone : st.get id = none) :
    (st.check_id (size_t_sub_one id) = false →
      do_get_arg st id = .error ⟨.invalid_argument, "Argument id out of range"⟩) ∧
    (st.check_id (size_t_sub_one id) = true → do_get_arg st id = .ok none) := by
  constructor <;> intro h <;> simp [do_get_arg, hnone, h]

/-- Witness for C3: index 0 against a store with zero arguments errors with
invalid_argument, and index 2 against a two-argument store (where
`check_id 1` holds) yields the empty result. -/
theorem C3_do_get_arg_witness :
    do_get_arg zeroStore 0 =
      .error ⟨.invalid_argument, "Argument id out of range"⟩ ∧
    do_get_arg natStore 2 = .ok none :=
  ⟨(C3_do_get_arg zeroStore 0 rfl).1 rfl,
   (C3_do_get_arg natStore 2 rfl).2 rfl⟩

/-- C9: resolving a named argument returns the empty result — never a slot,
never an error — and leaves the numbering state unchanged (the string overload
of `check_arg_id` is a no-op), so a subsequent automatic resolution behaves
exactly as if the named directive had not been resolved. -/
theorem C9_named_arg_empty {α : Type} (st : ArgStore α) (p : parse_context_base)
    (name : List Char) :
    arg_named st p name = (.ok none, p) ∧
    check_arg_id_str p name = p ∧
    next_arg st (arg_named st p name).2 = next_arg st p :=
  ⟨rfl, rfl, rfl⟩

/-- C1 (counterexample): with the two-argument store, an explicit `{0}`
directive followed by an automatic `{}` directive produces two *successful*
resolutions — the automatic one silently resolves to argument 0 — and even the
spec-modelled driver (`resolve_explicit`) reports no error in this order. So
mixing does not fail "regardless of order". -/
theorem C1_counterexample :
    (arg_explicit natStore pcb_init 0).1 = Except.ok (some 0) ∧
    (next_arg natStore (arg_explicit natStore pcb_init 0).2).1 =
      Except.ok (some 0) ∧
    (resolve_explicit natStore pcb_init 0).1 = Except.ok (some 0) ∧
    (next_arg natStore (resolve_explicit natStore pcb_init 0).2).1 =
      Except.ok (some 0) :=
  ⟨rfl, rfl, rfl, rfl⟩

/-- C1 (amended): mixing fails only when the explicit directive comes second.
After an automatic resolution (counter positive), an explicit directive is
rejected: the source `arg` returns the empty result and the spec-modelled
driver surfaces invalid_format_string. After an explicit directive (state
locked negative), an automatic directive does not fail at all: it resolves to
argument 0. -/
theorem C1_mixing_amended {α : Type} (st : ArgStore α) (p : parse_context_base)
    (i : Nat) :
    (0 < p.m_next_arg_id →
      (arg_explicit st p i).1 = .ok none ∧
      (resolve_explicit st p i).1 =
        .error ⟨.invalid_format_string,
          "mixing automatic and explicit argument indexing"⟩) ∧
    (p.m_next_arg_id < 0 → (next_arg st p).1 = do_get_arg st 0) := by
  constructor
  · intro h
    have hc : (check_arg_id p i).1 = false := by
      simp [check_arg_id_pos h]
    constructor <;> simp [arg_explicit, resolve_explicit, hc]
  · intro h
    simp [next_arg, next_arg_id_neg h]

/-- Witness for the amended C1 at concrete states. -/
theorem C1_mixing_amended_witness :
    ((arg_explicit natStore ⟨1⟩ 0).1 = Except.ok none ∧
      (resolve_explicit natStore ⟨1⟩ 0).1 =
        Except.error ⟨.invalid_format_string,
          "mixing automatic and explicit argument indexing"⟩) ∧
    (next_arg natStore ⟨-1⟩).1 = do_get_arg natStore 0 :=
  ⟨(C1_mixing_amended natStore ⟨1⟩ 0).1 (by decide),
   (C1_mixing_amended natStore ⟨-1⟩ 0).2 (by decide)⟩

/-! ## Sequenced-resolution lemmas (for C2) -/

theorem run_autos_getElem {α : Type} (st : ArgStore α) :
    ∀ (n i k : Nat), k < n →
      (run_autos st ⟨(i : Int)⟩ n).1[k]? = some (do_get_arg st (i + k)) := by
  intro n
  induction n with
  | zero => intro i k hk; exact absurd hk (Nat.not_lt_zero k)
  | succ n ih =>
    intro i k hk
    have hna : next_arg st ⟨(i : Int)⟩ =
        (do_get_arg st i, ⟨((i + 1 : Nat) : Int)⟩) := by
      simp [next_arg, next_arg_id_nonneg i]
    match k with
    | 0 => simp [run_autos, hna]
    | k + 1 =>
      have h' : k < n := Nat.lt_of_succ_lt_succ hk
      have heq : i + 1 + k = i + (k + 1) := by omega
      have hrec := ih (i + 1) k h'
      rw [heq] at hrec
      push_cast at hrec
      simp [run_autos, hna, hrec]

theorem run_explicits_getElem {α : Type} (st : ArgStore α) :
    ∀ (l : List Nat) (p : parse_context_base), p.m_next_arg_id ≤ 0 →
      ∀ (j : Nat) (hj : j < l.length),
        (run_explicits st p l).1[j]? = some (do_get_arg st l[j]) := by
  intro l
  induction l with
  | nil => intro p hp j hj; exact absurd hj (by simp)
  | cons id ids ih =>
    intro p hp j hj
    have hae : arg_explicit st p id = (do_get_arg st id, ⟨-1⟩) := by
      simp [arg_explicit, check_arg_id_nonpos hp]
    match j with
    | 0 => simp [run_explicits, hae]
    | j + 1 =>
      have h' : j < ids.length := by
        simpa using Nat.lt_of_succ_lt_succ hj
      have hrec := ih ⟨-1⟩ (by norm_num) j h'
      simp [run_explicits, hae, hrec]

/-- C2: starting from the fresh numbering state, the k-th automatic `{}`
resolution (0-based, so the n-th directive counting from 1 has k = n-1) looks
up argument index k; every explicit `{N}` resolution looks up exactly index N
regardless of its position j in the directive sequence; and a lookup of an
index the store supplies yields that slot. -/
theorem C2_resolution_order {α : Type} (st : ArgStore α) (n k : Nat)
    (hk : k < n) (l : List Nat) (j : Nat) (hj : j < l.length) :
    (run_autos st pcb_init n).1[k]? = some (do_get_arg st k) ∧
    (run_explicits st pcb_init l).1[j]? = some (do_get_arg st l[j]) ∧
    (∀ (s : α) (N : Nat), st.get N = some s → do_get_arg st N = .ok (some s)) := by
  refine ⟨?_, ?_, ?_⟩
  · have h := run_autos_getElem st n 0 k hk
    simpa [pcb_init] using h
  · exact run_explicits_getElem st l pcb_init (by norm_num [pcb_init]) j hj
  · intro s N hs
    simp [do_get_arg, hs]

/-- Witness for C2: two automatic directives resolve 0 then 1; the first of
the explicit directives `{1}{0}` resolves index 1; the store supplies slot 1
for index 1. -/
theorem C2_resolution_order_witness :
    (run_autos natStore pcb_init 2).1[1]? = some (do_get_arg natStore 1) ∧
    (run_explicits natStore pcb_init [1, 0]).1[0]? =
      some (do_get_arg natStore 1) ∧
    do_get_arg natStore 1 = Except.ok (some 1) :=
  ⟨(C2_resolution_order natStore 2 1 (by decide) [1, 0] 0 (by decide)).1,
   (C2_resolution_order natStore 2 1 (by decide) [1, 0] 0 (by decide)).2.1,
   (C2_resolution_order natStore 2 1 (by decide) [1, 0] 0
      (by decide)).2.2 1 1 rfl⟩

/-! ## Brace dialect: `basic_parse_context` (parse_context.h lines 62-173)

The cursor `m_str` is the remaining view, a `List Char`; `advance` drops its
head, `next` reads its head, `good` is non-emptiness. -/

/-- `basic_parse_context::should_read_literal`:
`if (next() != brace) { if (next() == rbrace) advance(); return true; }
 if (m_str.size() > 1 && *(m_str.begin() + 1) == brace) { advance(); return true; }
 return false;`
`none` marks the undefined `next()` on an exhausted cursor. -/
def should_read_literal : List Char → Option (Bool × List Char)
  | [] => none
  | c :: rest =>
    if c ≠ '{' then
      if c = '}' then some (true, rest) else some (true, c :: rest)
    else if 1 < (c :: rest).length ∧ rest[0]? = some '{' then
      some (true, rest)
    else
      some (false, c :: rest)

/-- `basic_parse_context::check_literal(ch)`: `return ch == next();`. -/
def check_literal : List Char → Char → Option Bool
  | [], _ => none
  | c :: _, ch => some (ch == c)

/-- `basic_parse_context::advance()` (n = 1): `SCN_EXPECT(good()); m_str.remove
one leading character`. -/
def brace_advance : List Char → Option (List Char)
  | [] => none
  | _ :: rest => some rest

/-- The scanning loop of `basic_parse_context::parse_arg_id` after the opening
delimiter has been consumed:
`for (size_t i = 0; good(); ++i, advance()) {
   if (check_arg_end(loc)) return string_view{it, i};
   if (next() == ':') { advance(); return string_view{it, i}; }
 }
 return error(invalid_format_string, "Unexpected end of format argument");`
(`check_arg_end` in this dialect is `next() == '}'`). Returns the id span and
the remaining view. -/
def scan_id : List Char → Except error_t (List Char × List Char)
  | [] => .error ⟨.invalid_format_string, "Unexpected end of format argument"⟩
  | c :: rest =>
    if c = '}' then .ok ([], c :: rest)
    else if c = ':' then .ok ([], rest)
    else
      match scan_id rest with
      | .ok (sp, rem) => .ok (c :: sp, rem)
      | .error e => .error e

/-- `basic_parse_context::parse_arg_id`:
`SCN_EXPECT(good()); advance();
 if (!good()) return error(invalid_format_string, "Unexpected end of format argument");`
then the loop (`scan_id`). `none` marks the violated `SCN_EXPECT`. -/
def parse_arg_id : List Char → Option (Except error_t (List Char × List Char))
  | [] => none
  | _ :: rest =>
    if rest.isEmpty then
      some (.error ⟨.invalid_format_string, "Unexpected end of format argument"⟩)
    else
      some (scan_id rest)

theorem scan_id_no_stop :
    ∀ (l : List Char), (∀ c ∈ l, c ≠ '}' ∧ c ≠ ':') →
      scan_id l = .error ⟨.invalid_format_string,
        "Unexpected end of format argument"⟩ := by
  intro l
  induction l with
  | nil => intro _; rfl
  | cons c rest ih =>
    intro h
    have hc := h c (List.mem_cons_self c rest)
    have hr := ih fun x hx => h x (List.mem_cons_of_mem c hx)
    simp [scan_id, hc.1, hc.2, hr]

theorem scan_id_stops_brace :
    ∀ (pre suf : List Char), (∀ c ∈ pre, c ≠ '}' ∧ c ≠ ':') →
      scan_id (pre ++ '}' :: suf) = .ok (pre, '}' :: suf) := by
  intro pre
  induction pre with
  | nil => intro suf _; simp [scan_id]
  | cons c rest ih =>
    intro suf h
    have hc := h c (List.mem_cons_self c rest)
    have hr := ih suf fun x hx => h x (List.mem_cons_of_mem c hx)
    simp [scan_id, hc.1, hc.2, hr]

theorem scan_id_stops_colon :
    ∀ (pre suf : List Char), (∀ c ∈ pre, c ≠ '}' ∧ c ≠ ':') →
      scan_id (pre ++ ':' :: suf) = .ok (pre, suf) := by
  intro pre
  induction pre with
  | nil => intro suf _; simp [scan_id]
  | cons c rest ih =>
    intro suf h
    have hc := h c (List.mem_cons_self c rest)
    have hr := ih suf fun x hx => h x (List.mem_cons_of_mem c hx)
    simp [scan_id, hc.1, hc.2, hr]

/-- C5: after advancing past the opening delimiter `c0`, `parse_arg_id` on a
suffix whose first stop character is `}` succeeds with the accumulated span
(empty for `{}`), leaving the `}` unconsumed; on a suffix whose first stop
character is `:` it consumes the `:` and succeeds with the span; and when the
string ends before either stop character (including when the opening delimiter
is the last character, `pre = []`) it fails with invalid_format_string,
"Unexpected end of format argument". -/
theorem C5_parse_arg_id (c0 : Char) (pre suf : List Char)
    (h : ∀ c ∈ pre, c ≠ '}' ∧ c ≠ ':') :
    parse_arg_id (c0 :: (pre ++ '}' :: suf)) = some (.ok (pre, '}' :: suf)) ∧
    parse_arg_id (c0 :: (pre ++ ':' :: suf)) = some (.ok (pre, suf)) ∧
    parse_arg_id (c0 :: pre) =
      some (.error ⟨.invalid_format_string,
        "Unexpected end of format argument"⟩) := by
  refine ⟨?_, ?_, ?_⟩
  · have : (pre ++ '}' :: suf).isEmpty = false := by
      cases pre <;> simp
    simp [parse_arg_id, this, scan_id_stops_brace pre suf h]
  · have : (pre ++ ':' :: suf).isEmpty = false := by
      cases pre <;> simp
    simp [parse_arg_id, this, scan_id_stops_colon pre suf h]
  · cases pre with
    | nil => rfl
    | cons c rest =>
      simp [parse_arg_id, scan_id_no_stop _ h]

/-- Witness for C5 on the concrete directives `{1}x`, `{1:d}x` and the
truncated `{1` / bare `{`. -/
theorem C5_parse_arg_id_witness :
    parse_arg_id ['{', '1', '}', 'x'] = some (.ok (['1'], ['}', 'x'])) ∧
    parse_arg_id ['{', '1', ':', 'd'] = some (.ok (['1'], ['d'])) ∧
    parse_arg_id ['{', '1'] =
      some (.error ⟨.invalid_format_string,
        "Unexpected end of format argument"⟩) :=
  ⟨(C5_parse_arg_id '{' ['1'] ['x'] (by decide)).1,
   (C5_parse_arg_id '{' ['1'] ['d'] (by decide)).2.1,
   (C5_parse_arg_id '{' ['1'] [] (by decide)).2.2⟩

/-! ## Percent dialect: `basic_scanf_parse_context` (parse_context.h lines
175-283)

The state is the whole view `m_str` plus the iterator `m_it`, an index with
the invariant `m_it ≤ m_str.length`; `good` is `m_it != m_str.end()`. -/

/-- `basic_scanf_parse_context`: the view and the iterator index. -/
structure scanf_ctx where
  m_str : List Char
  m_it : Nat
  deriving DecidableEq, Repr

/-- `basic_scanf_parse_context::good()`: `m_it != m_str.end()`. -/
def scanf_good (c : scanf_ctx) : Bool :=
  decide (c.m_it ≠ c.m_str.length)

/-- `basic_scanf_parse_context::next()`: `*m_it`; `none` when the iterator is
at the end (dereferencing the end iterator is undefined). -/
def scanf_next (c : scanf_ctx) : Option Char :=
  c.m_str[c.m_it]?

/-- `basic_scanf_parse_context::check_arg_begin`: `next() == '%'`. -/
def scanf_check_arg_begin (c : scanf_ctx) : Bool :=
  match scanf_next c with
  | some ch => ch == '%'
  | none => false

/-- `basic_scanf_parse_context::check_arg_end`:
`return !good() || check_arg_begin(loc) || loc.is_space(next());`
(short-circuit: `next()` is only read when `good()`). -/
def scanf_check_arg_end (is_space : Char → Bool) (c : scanf_ctx) : Bool :=
  !scanf_good c || scanf_check_arg_begin c ||
    ((scanf_next c).map is_space).getD false

/-- `basic_scanf_parse_context::backward()` (n = 1):
`SCN_EXPECT(m_it != m_str.begin()); m_it -= n;` — `none` marks the violated
precondition. -/
def scanf_backward (c : scanf_ctx) : Option scanf_ctx :=
  if c.m_it = 0 then none else some ⟨c.m_str, c.m_it - 1⟩

/-- `basic_scanf_parse_context::arg_end()`: `if (good()) backward();`. -/
def scanf_arg_end (c : scanf_ctx) : Option scanf_ctx :=
  if scanf_good c then scanf_backward c else some c

/-- `basic_scanf_parse_context::should_read_literal`:
`if (next() != percent) return true;
 if (std::distance(m_it, m_str.end()) > 1 && *(m_it + 1) == percent)
   { advance(); return true; }
 return false;` -/
def scanf_should_read_literal (c : scanf_ctx) : Option (Bool × scanf_ctx) :=
  match scanf_next c with
  | none => none
  | some ch =>
    if ch ≠ '%' then some (true, c)
    else if 1 < c.m_str.length - c.m_it ∧ c.m_str[c.m_it + 1]? = some '%' then
      some (true, ⟨c.m_str, c.m_it + 1⟩)
    else
      some (false, c)

/-- `basic_scanf_parse_context::check_literal(ch)`: `return ch == next();`. -/
def scanf_check_literal (c : scanf_ctx) (ch : Char) : Option Bool :=
  (scanf_next c).map fun x => ch == x

/-- `basic_scanf_parse_context::advance()` (n = 1):
`SCN_EXPECT(good()); m_it += n;`. -/
def scanf_advance (c : scanf_ctx) : Option scanf_ctx :=
  if scanf_good c then some ⟨c.m_str, c.m_it + 1⟩ else none

/-- C6: in the Percent dialect, `check_arg_end` holds in exactly three cases —
the cursor is at end-of-input, the next character is `%`, or the next
character is a space per the locale; and `arg_end` retreats the cursor by
exactly one position when not at end (so the terminating character is again
the next one available to the caller), and leaves it unchanged at end. -/
theorem C6_scanf_directive_end (is_space : Char → Bool) (c : scanf_ctx)
    (hwf : c.m_it ≤ c.m_str.length) :
    (scanf_check_arg_end is_space c = true ↔
      (c.m_it = c.m_str.length ∨
        ∃ ch, scanf_next c = some ch ∧ (ch = '%' ∨ is_space ch = true))) ∧
    (c.m_it < c.m_str.length → 0 < c.m_it →
      scanf_arg_end c = some ⟨c.m_str, c.m_it - 1⟩ ∧
      scanf_next ⟨c.m_str, c.m_it - 1⟩ = c.m_str[c.m_it - 1]?) ∧
    (c.m_it = c.m_str.length → scanf_arg_end c = some c) := by
  refine ⟨?_, fun hlt hpos => ?_, fun hend => ?_⟩
  · by_cases hend : c.m_it = c.m_str.length
    · have : scanf_check_arg_end is_space c = true := by
        simp [scanf_check_arg_end, scanf_good, hend]
      simp [this, hend]
    · have hlt : c.m_it < c.m_str.length := lt_of_le_of_ne hwf hend
      have hnext : scanf_next c = some c.m_str[c.m_it] := by
        simp [scanf_next, List.getElem?_eq_getElem hlt]
      simp [scanf_check_arg_end, scanf_good, scanf_check_arg_begin, hend,
        hnext]
  · have hgood : scanf_good c = true := by
      simp [scanf_good]
      omega
    have hne : c.m_it ≠ 0 := Nat.pos_iff_ne_zero.mp hpos
    constructor
    · simp [scanf_arg_end, hgood, scanf_backward, hne]
    · simp [scanf_next]
  · simp [scanf_arg_end, scanf_good, hend]

/-- Witness for C6 on the concrete cursor over "a b" (position 1, a space
next, not at end): `check_arg_end` holds and `arg_end` retreats to 0. -/
theorem C6_scanf_directive_end_witness :
    (scanf_check_arg_end (fun ch => ch == ' ') ⟨['a', ' ', 'b'], 1⟩ = true ↔
      (1 = 3 ∨ ∃ ch, scanf_next ⟨['a', ' ', 'b'], 1⟩ = some ch ∧
        (ch = '%' ∨ (ch == ' ') = true))) ∧
    scanf_arg_end ⟨['a', ' ', 'b'], 1⟩ = some ⟨['a', ' ', 'b'], 0⟩ :=
  ⟨(C6_scanf_directive_end (fun ch => ch == ' ') ⟨['a', ' ', 'b'], 1⟩
      (by decide)).1,
   ((C6_scanf_directive_end (fun ch => ch == ' ') ⟨['a', ' ', 'b'], 1⟩
      (by decide)).2.1 (by decide) (by decide)).1⟩

/-- C7: the escape sequences `{{` and `}}` (Brace dialect) each yield one
literal brace and move the cursor past both source characters — one consumed
inside `should_read_literal`, the second matched by `check_literal` and then
consumed by `advance`; likewise `%%` (Percent dialect) yields one literal `%`
and moves past both characters. -/
theorem C7_escape_literals (rest : List Char) (s : List Char) (i : Nat)
    (h1 : s[i]? = some '%') (h2 : s[i + 1]? = some '%') :
    (should_read_literal ('{' :: '{' :: rest) = some (true, '{' :: rest) ∧
      check_literal ('{' :: rest) '{' = some true ∧
      brace_advance ('{' :: rest) = some rest) ∧
    (should_read_literal ('}' :: '}' :: rest) = some (true, '}' :: rest) ∧
      check_literal ('}' :: rest) '}' = some true ∧
      brace_advance ('}' :: rest) = some rest) ∧
    (scanf_should_read_literal ⟨s, i⟩ = some (true, ⟨s, i + 1⟩) ∧
      scanf_check_literal ⟨s, i + 1⟩ '%' = some true ∧
      scanf_advance ⟨s, i + 1⟩ = some ⟨s, i + 2⟩) := by
  have hlen : i + 1 < s.length := by
    have := List.getElem?_eq_some_iff.mp h2
    exact this.1
  refine ⟨⟨?_, ?_, ?_⟩, ⟨?_, ?_, ?_⟩, ⟨?_, ?_, ?_⟩⟩
  · simp [should_read_literal]
  · rfl
  · rfl
  · rfl
  · rfl
  · rfl
  · have hd : 1 < s.length - i := by omega
    simp [scanf_should_read_literal, scanf_next, h1, h2, hd]
  · simp [scanf_check_literal, scanf_next, h2]
  · have : scanf_good ⟨s, i + 1⟩ = true := by
      simp [scanf_good]
      omega
    simp [scanf_advance, this]

/-- Witness for C7 on the concrete format strings braces over "x" and the
percent cursor over "%%y". -/
theorem C7_escape_literals_witness :
    (should_read_literal ['{', '{', 'x'] = some (true, ['{', 'x']) ∧
      check_literal ['{', 'x'] '{' = some true ∧
      brace_advance ['{', 'x'] = some ['x']) ∧
    (should_read_literal ['}', '}', 'x'] = some (true, ['}', 'x']) ∧
      check_literal ['}', 'x'] '}' = some true ∧
      brace_advance ['}', 'x'] = some ['x']) ∧
    (scanf_should_read_literal ⟨['%', '%', 'y'], 0⟩ =
        some (true, ⟨['%', '%', 'y'], 1⟩) ∧
      scanf_check_literal ⟨['%', '%', 'y'], 1⟩ '%' = some true ∧
      scanf_advance ⟨['%', '%', 'y'], 1⟩ = some ⟨['%', '%', 'y'], 2⟩) :=
  C7_escape_literals ['x'] ['%', '%', 'y'] 0 (by decide) (by decide)

/-! ## Positional dialect: `basic_empty_parse_context` (parse_context.h lines
285-368)

No format text: the whole state is the remaining count `m_args_left` (a C++
`int`) and the one-shot flag `m_should_skip_ws`. -/

/-- `basic_empty_parse_context`: remaining count plus one-shot skip flag. -/
structure empty_ctx where
  m_args_left : Int
  m_should_skip_ws : Bool
  deriving DecidableEq, Repr

/-- The constructor `basic_empty_parse_context(int args)`:
`m_args_left(args)` with `m_should_skip_ws{false}`. -/
def empty_ctx_mk (args : Int) : empty_ctx := ⟨args, false⟩

/-- `basic_empty_parse_context::should_skip_ws`:
`if (m_should_skip_ws) { m_should_skip_ws = false; return true; } return false;` -/
def empty_should_skip_ws (c : empty_ctx) : Bool × empty_ctx :=
  if c.m_should_skip_ws then (true, ⟨c.m_args_left, false⟩) else (false, c)

/-- `basic_empty_parse_context::good()`: `m_args_left > 0`. -/
def empty_good (c : empty_ctx) : Bool :=
  decide (0 < c.m_args_left)

/-- `basic_empty_parse_context::arg_handled()`:
`m_should_skip_ws = true; --m_args_left;` -/
def empty_arg_handled (c : empty_ctx) : empty_ctx :=
  ⟨c.m_args_left - 1, true⟩

/-- `basic_empty_parse_context::next()`: `SCN_EXPECT(false); SCN_UNREACHABLE;`
— no defined result in any state; `none` marks the always-violated
precondition. -/
def empty_next (_ : empty_ctx) : Option Char := none

/-- Iterate `arg_handled` i times (one call per handled directive). -/
def iter_arg_handled (c : empty_ctx) : Nat → empty_ctx
  | 0 => c
  | n + 1 => iter_arg_handled (empty_arg_handled c) n

/-- Call `should_skip_ws` j times in sequence, counting how many return true. -/
def count_skips (c : empty_ctx) : Nat → Nat × empty_ctx
  | 0 => (0, c)
  | n + 1 =>
    ((if (empty_should_skip_ws c).1 then 1 else 0) +
       (count_skips (empty_should_skip_ws c).2 n).1,
     (count_skips (empty_should_skip_ws c).2 n).2)

theorem iter_arg_handled_args_left :
    ∀ (i : Nat) (c : empty_ctx),
      (iter_arg_handled c i).m_args_left = c.m_args_left - i := by
  intro i
  induction i with
  | zero => intro c; simp [iter_arg_handled]
  | succ n ih =>
    intro c
    show (iter_arg_handled (empty_arg_handled c) n).m_args_left = _
    rw [ih (empty_arg_handled c)]
    simp only [empty_arg_handled]
    omega

theorem count_skips_unarmed :
    ∀ (j : Nat) (c : empty_ctx), c.m_should_skip_ws = false →
      count_skips c j = (0, c) := by
  intro j
  induction j with
  | zero => intro c _; rfl
  | succ n ih =>
    intro c h
    have hss : empty_should_skip_ws c = (false, c) := by
      simp [empty_should_skip_ws, h]
    simp [count_skips, hss, ih c h]

/-- C8: in the Positional dialect constructed with count N, after i handled
directives the remaining count is N - i and the cursor is exhausted exactly
when i reaches N; `should_skip_ws` returns the one-shot flag and clears it;
`arg_handled` decrements the remaining count and re-arms the flag; hence any
run of j consecutive `should_skip_ws` calls between two `arg_handled` calls
returns true at most once. -/
theorem C8_positional_counting (N : Nat) (i j : Nat) (c : empty_ctx) :
    ((iter_arg_handled (empty_ctx_mk N) i).m_args_left = (N : Int) - i) ∧
    (empty_good (iter_arg_handled (empty_ctx_mk N) i) = true ↔ i < N) ∧
    (empty_should_skip_ws c = (c.m_should_skip_ws, ⟨c.m_args_left, false⟩)) ∧
    (empty_arg_handled c = ⟨c.m_args_left - 1, true⟩) ∧
    ((count_skips (empty_arg_handled c) j).1 ≤ 1) := by
  refine ⟨iter_arg_handled_args_left i (empty_ctx_mk N), ?_, ?_, rfl, ?_⟩
  · rw [empty_good, iter_arg_handled_args_left i (empty_ctx_mk N)]
    simp only [empty_ctx_mk, decide_eq_true_eq]
    omega
  · obtain ⟨a, f⟩ := c
    cases f <;> simp [empty_should_skip_ws]
  · match j with
    | 0 => simp [count_skips]
    | n + 1 =>
      have h1 : empty_should_skip_ws (empty_arg_handled c) =
          (true, ⟨c.m_args_left - 1, false⟩) := by
        simp [empty_should_skip_ws, empty_arg_handled]
      have h2 := count_skips_unarmed n ⟨c.m_args_left - 1, false⟩ rfl
      simp [count_skips, h1, h2]

/-- C10: in the Positional dialect, `next()` has no defined result in any
state — it is an unconditionally-failing precondition (assertion plus
unreachable marker), never a placeholder character. -/
theorem C10_positional_next_contract (c : empty_ctx) : empty_next c = none :=
  rfl

end Scnlib
